import Mathlib

/-
Verification of the `create_linear_tickets.py` batch-import script.

The script reads ticket definitions from JSON and creates corresponding
issues in a remote tracker (labels, workflow state, project, priority,
and "blocks" relations derived from the declared dependency edges).

This file gives a shallow embedding of the script's data model and of the
functions the specification talks about, and proves (or refutes) the
specification's claims against that embedding.  Remote calls are
abstracted by oracles (a response function passed in as an argument), and
the sequence of network calls and rate-limit sleeps is reified as an
explicit event trace.
-/

set_option autoImplicit false

namespace CreateLinearTickets

/-- A ticket record as read from the input JSON.  `phase` and `priority`
are optional keys (`dict.get` with a default in the source); `labels`,
`dependencies` and `spec_refs` default to the empty list, which is
indistinguishable from an absent key, so they are plain lists here. -/
structure Ticket where
  id : String
  title : String
  description : String
  phase : Option String
  labels : List String
  priority : Option Int
  dependencies : List String
  spec_refs : List String
  deriving Repr, DecidableEq

/-- The issue data returned by a successful `issueCreate` call. -/
structure IssueData where
  id : String
  identifier : String
  url : String
  deriving Repr, DecidableEq

/-- A record of the script's result list (`TicketResult` in the source). -/
structure TicketResult where
  json_id : String
  linear_id : String
  identifier : String
  url : String
  deriving Repr, DecidableEq

/- ### Python dictionaries

Python dicts keyed by strings are embedded as association lists with
unique keys in insertion order; `dinsert` models `d[k] = v`
(overwriting in place, appending a fresh key at the end) and `dlookup`
models `d[k]` / `k in d`. -/

/-- Lookup in an embedded Python dict. -/
def dlookup : List (String × String) → String → Option String
  | [], _ => none
  | (a, b) :: m, k => if k = a then some b else dlookup m k

/-- Assignment `d[k] = v` in an embedded Python dict: overwrite the
binding in place when the key is present, append it otherwise. -/
def dinsert (m : List (String × String)) (k v : String) : List (String × String) :=
  if (dlookup m k).isSome then
    m.map (fun p => if p.1 = k then (k, v) else p)
  else m ++ [(k, v)]

/-- The keys of an embedded Python dict, in insertion order. -/
def dkeys (m : List (String × String)) : List String := m.map Prod.fst

theorem dlookup_nil (k : String) : dlookup [] k = none := rfl

theorem dlookup_cons (a b k : String) (m : List (String × String)) :
    dlookup ((a, b) :: m) k = if k = a then some b else dlookup m k := rfl

theorem dlookup_replace (m : List (String × String)) (k v k' : String) :
    dlookup (m.map (fun p => if p.1 = k then (k, v) else p)) k' =
      if k' = k then (dlookup m k).map (fun _ => v) else dlookup m k' := by
  induction m with
  | nil => by_cases h : k' = k <;> simp [dlookup, h]
  | cons p m ih =>
    obtain ⟨a, b⟩ := p
    simp only [List.map_cons]
    by_cases hak : a = k
    · subst hak
      have hhead : (if (a, b).1 = a then (a, v) else (a, b)) = (a, v) := if_pos rfl
      rw [hhead]
      by_cases hk' : k' = a <;> simp [dlookup_cons, hk', ih]
    · have hhead : (if (a, b).1 = k then (k, v) else (a, b)) = (a, b) := if_neg hak
      rw [hhead]
      by_cases hk' : k' = a
      · subst hk'
        simp [dlookup_cons, hak]
      · by_cases hk : k' = k
        · subst hk
          simp [dlookup_cons, hk', ih, Ne.symm hak]
        · simp [dlookup_cons, hk', hk, ih, Ne.symm hak]

theorem dlookup_append_single (m : List (String × String)) (k v k' : String) :
    dlookup (m ++ [(k, v)]) k' =
      if (dlookup m k').isSome then dlookup m k'
      else if k' = k then some v else none := by
  induction m with
  | nil => by_cases h : k' = k <;> simp [dlookup, h]
  | cons p m ih =>
    obtain ⟨a, b⟩ := p
    by_cases hk' : k' = a <;> simp [dlookup, hk', ih]

theorem dlookup_dinsert (m : List (String × String)) (k v k' : String) :
    dlookup (dinsert m k v) k' = if k' = k then some v else dlookup m k' := by
  unfold dinsert
  by_cases hs : (dlookup m k).isSome
  · rw [if_pos hs, dlookup_replace]
    by_cases hk : k' = k
    · obtain ⟨w, hw⟩ := Option.isSome_iff_exists.mp hs
      simp [hk, hw]
    · simp [hk]
  · rw [if_neg hs, dlookup_append_single]
    by_cases hk : k' = k
    · subst hk
      simp only [Option.not_isSome_iff_eq_none.mp hs, Option.isSome_none,
        Bool.false_eq_true, if_false, if_pos rfl]
    · by_cases hs' : (dlookup m k').isSome
      · simp [hs', hk]
      · simp [hs', hk, Option.not_isSome_iff_eq_none.mp hs']

theorem dlookup_isSome_iff_mem_dkeys (m : List (String × String)) (k : String) :
    (dlookup m k).isSome ↔ k ∈ dkeys m := by
  induction m with
  | nil => simp [dlookup, dkeys]
  | cons p m ih =>
    obtain ⟨a, b⟩ := p
    by_cases hk : k = a <;> simp [dlookup, dkeys, hk] <;> simpa [dkeys] using ih

theorem dkeys_dinsert (m : List (String × String)) (k v : String) :
    dkeys (dinsert m k v) = if (dlookup m k).isSome then dkeys m else dkeys m ++ [k] := by
  unfold dinsert
  by_cases hs : (dlookup m k).isSome
  · rw [if_pos hs, if_pos hs]
    unfold dkeys
    rw [List.map_map]
    refine List.map_congr_left ?_
    intro p _
    by_cases h : p.1 = k <;> simp [h]
  · rw [if_neg hs, if_neg hs]
    simp [dkeys]

theorem mem_dkeys_dinsert (m : List (String × String)) (k v k' : String) :
    k' ∈ dkeys (dinsert m k v) ↔ k' = k ∨ k' ∈ dkeys m := by
  rw [dkeys_dinsert]
  by_cases hs : (dlookup m k).isSome
  · rw [if_pos hs]
    have hk : k ∈ dkeys m := (dlookup_isSome_iff_mem_dkeys m k).mp hs
    constructor
    · exact Or.inr
    · rintro (rfl | h)
      · exact hk
      · exact h
  · rw [if_neg hs]
    simp [or_comm]

theorem nodup_dkeys_dinsert (m : List (String × String)) (k v : String)
    (h : (dkeys m).Nodup) : (dkeys (dinsert m k v)).Nodup := by
  rw [dkeys_dinsert]
  by_cases hs : (dlookup m k).isSome
  · rwa [if_pos hs]
  · rw [if_neg hs]
    have hk : k ∉ dkeys m := fun hmem =>
      hs ((dlookup_isSome_iff_mem_dkeys m k).mpr hmem)
    simp [List.nodup_append, h, hk]

/- ### Network events

Remote calls and rate-limit sleeps are reified as an event trace.
`mutate` is a mutating call that returned normally, `mutateFail` is a
mutating call whose request raised (transport error or GraphQL error),
`query` is a read-only call, `sleep` is `time.sleep(RATE_LIMIT_DELAY)`. -/

inductive Ev where
  | query (name : String)
  | mutate (name : String)
  | mutateFail (name : String)
  | sleep
  deriving Repr, DecidableEq

/-- Predicate `evOk e rest` holds unless `e` is a successful mutating call that is
not immediately followed by a rate-limit sleep. -/
def evOk : Ev → List Ev → Bool
  | Ev.mutate _, Ev.sleep :: _ => true
  | Ev.mutate _, _ => false
  | _, _ => true

/-- Every successful mutating call in the trace is immediately followed
by a rate-limit sleep. -/
def mutFollowedBySleep : List Ev → Bool
  | [] => true
  | e :: rest => evOk e rest && mutFollowedBySleep rest

/- ### Priority mapping (`PRIORITY_MAP`, line 53, and its use at line 445) -/

/-- Constant `PRIORITY_MAP` from the source: `{1: 1, 2: 2, 3: 3, 4: 4}` as a
partial map, accessed with `.get(key, 3)`. -/
def PRIORITY_MAP : Int → Option Int := fun p =>
  if p = 1 then some 1
  else if p = 2 then some 2
  else if p = 3 then some 3
  else if p = 4 then some 4
  else none

/-- Expression `PRIORITY_MAP.get(ticket.get("priority", 3), 3)` (line 445). -/
def ticketPriority (t : Ticket) : Int :=
  (PRIORITY_MAP (t.priority.getD 3)).getD 3

/- ### Description formatting (`format_description`, lines 346-384) -/

/-- Function `format_description`: body, spec-reference links, dependency list and
footer metadata joined with newlines. -/
def format_description (ticket : Ticket) (github_base_url : String) : String :=
  let parts1 := [ticket.description, ""]
  let parts2 :=
    if ticket.spec_refs ≠ [] then
      ["## Spec References"] ++
        ticket.spec_refs.map
          (fun ref => "- [" ++ ref ++ "](" ++ github_base_url ++ "/" ++ ref ++ ")") ++
        [""]
    else []
  let parts3 :=
    if ticket.dependencies ≠ [] then
      ["## Dependencies", "Blocked by: " ++ String.intercalate ", " ticket.dependencies, ""]
    else []
  let parts4 :=
    ["---",
     "*Phase: " ++ ticket.phase.getD "unknown" ++ "*",
     "*Source: lichess_tickets.json (" ++ ticket.id ++ ")*"]
  String.intercalate "\n" (parts1 ++ parts2 ++ parts3 ++ parts4)

/- ### Ticket filtering and label collection (lines 394-411) -/

/-- The body of the `collect_all_labels` loop for one ticket: add the
ticket's explicit labels, then its phase when truthy (present and
non-empty). -/
def collectTicketStep (labels : Finset String) (ticket : Ticket) : Finset String :=
  let labels := ticket.labels.foldl (fun labels label => insert label labels) labels
  let phase := ticket.phase.getD ""
  if phase ≠ "" then insert phase labels else labels

/-- Function `collect_all_labels`: the set of every ticket's explicit labels plus
its phase (when truthy, i.e. present and non-empty). -/
def collect_all_labels (tickets : List Ticket) : Finset String :=
  tickets.foldl collectTicketStep ∅

/-- Function `filter_tickets_by_phase`: identity when `phase` is falsy (absent or
empty), otherwise keep tickets whose `phase` key equals it. -/
def filter_tickets_by_phase (tickets : List Ticket) (phase : Option String) : List Ticket :=
  match phase with
  | none => tickets
  | some p => if p = "" then tickets else tickets.filter (fun t => t.phase = some p)

/- ### Label resolution (`get_or_create_labels`, lines 98-140)

`create_label` (lines 143-176) is abstracted by `mkId`, the id the remote
assigns to a newly created label; a creation that does not report success
raises and aborts the whole resolver, which no claim exercises, so `mkId`
is total here. -/

/-- The `existing` dict: `{label["name"].lower(): label["id"]}` built from
the fetched label nodes (later duplicates overwrite earlier ones). -/
def buildExisting (nodes : List (String × String)) : List (String × String) :=
  nodes.foldl (fun m p => dinsert m p.1.toLower p.2) []

/-- The loop of `get_or_create_labels` over the requested names, threading
the `result` and `existing` dicts and returning, besides the final
`result`, the list of names sent to `create_label` and the event trace. -/
def golLoop (mkId : String → String) :
    List String → List (String × String) → List (String × String) →
      List (String × String) × List String × List Ev
  | [], result, _ => (result, [], [])
  | name :: rest, result, existing =>
    match dlookup existing name.toLower with
    | some label_id => golLoop mkId rest (dinsert result name label_id) existing
    | none =>
      let label_id := mkId name
      let (res, crs, tr) :=
        golLoop mkId rest (dinsert result name label_id)
          (dinsert existing name.toLower label_id)
      (res, name :: crs, Ev.mutate "issueLabelCreate" :: Ev.sleep :: tr)

/-- Function `get_or_create_labels`: fetch existing labels, then resolve each
requested name, creating the missing ones.  Returns the name→id dict, the
names created, and the event trace. -/
def get_or_create_labels (mkId : String → String) (nodes : List (String × String))
    (label_names : List String) :
    List (String × String) × List String × List Ev :=
  let (result, creations, tr) := golLoop mkId label_names [] (buildExisting nodes)
  (result, creations, Ev.query "GetLabels" :: tr)

/- ### Project resolution (`get_or_create_project`, lines 179-228) -/

/-- Function `get_or_create_project`: return the first fetched project whose name
matches case-insensitively, else create one (`newId` abstracts the id the
remote assigns).  Note: the creation is not followed by a sleep. -/
def get_or_create_project (projects : List (String × String)) (project_name : String)
    (newId : String) : String × List Ev :=
  match projects.find? (fun p => p.1.toLower = project_name.toLower) with
  | some p => (p.2, [Ev.query "GetProjects"])
  | none => (newId, [Ev.query "GetProjects", Ev.mutate "projectCreate"])

/- ### Batch issue creation (`create_tickets_batch`, lines 414-493) -/

/-- The non-ticket arguments of `create_tickets_batch`. -/
structure BatchCtx where
  team_id : String
  label_map : List (String × String)
  state_id : String
  project_id : Option String
  github_base_url : String

/-- Lines 448-451: the ticket's labels plus its phase when truthy. -/
def ticketLabelNames (t : Ticket) : List String :=
  let phase := t.phase.getD ""
  if phase ≠ "" then t.labels ++ [phase] else t.labels

/-- Line 453: `[label_map[l] for l in ticket_labels if l in label_map]`. -/
def labelIdsFor (label_map : List (String × String)) (t : Ticket) : List String :=
  (ticketLabelNames t).filterMap (fun l => dlookup label_map l)

/-- The argument record of the `create_issue` call built for one ticket
(lines 442-476). -/
structure IssueRequest where
  teamId : String
  title : String
  description : String
  stateId : String
  priority : Int
  labelIds : List String
  projectId : Option String
  deriving Repr, DecidableEq

/-- The `create_issue` request built for a ticket. -/
def issueRequestFor (ctx : BatchCtx) (t : Ticket) : IssueRequest :=
  { teamId := ctx.team_id
    title := t.title
    description := format_description t ctx.github_base_url
    stateId := ctx.state_id
    priority := ticketPriority t
    labelIds := labelIdsFor ctx.label_map t
    projectId := ctx.project_id }

/-- The result record appended for a successfully created issue
(lines 478-483). -/
def mkResult (t : Ticket) (issue : IssueData) : TicketResult :=
  { json_id := t.id
    linear_id := issue.id
    identifier := issue.identifier
    url := issue.url }

/-- The placeholder result appended in dry-run mode for the ticket at
zero-based position `i` (lines 459-464). -/
def dryPlaceholder (i : Nat) (t : Ticket) : TicketResult :=
  { json_id := t.id
    linear_id := "dry-run"
    identifier := "DRY-" ++ toString (i + 1)
    url := "https://linear.app/dry-run" }

/-- The loop of `create_tickets_batch`: `i` is the zero-based loop index,
`id_map` the accumulated JSON-id → remote-id dict.  `oracle` abstracts
`create_issue`: `none` means the call raised (non-success report or
transport error), which is caught and the loop continues. -/
def ctbLoop (ctx : BatchCtx) (oracle : IssueRequest → Option IssueData) (dry_run : Bool) :
    List Ticket → Nat → List (String × String) →
      List TicketResult × List (String × String) × List Ev
  | [], _, id_map => ([], id_map, [])
  | t :: rest, i, id_map =>
    if dry_run then
      let (res, m, tr) := ctbLoop ctx oracle dry_run rest (i + 1)
        (dinsert id_map t.id ("dry-run-" ++ t.id))
      (dryPlaceholder i t :: res, m, tr)
    else
      match oracle (issueRequestFor ctx t) with
      | some issue =>
        let (res, m, tr) := ctbLoop ctx oracle dry_run rest (i + 1)
          (dinsert id_map t.id issue.id)
        (mkResult t issue :: res, m, Ev.mutate "issueCreate" :: Ev.sleep :: tr)
      | none =>
        let (res, m, tr) := ctbLoop ctx oracle dry_run rest (i + 1) id_map
        (res, m, Ev.mutateFail "issueCreate" :: tr)

/-- Function `create_tickets_batch`: returns the results list, the JSON-id →
remote-id dict, and the event trace. -/
def create_tickets_batch (ctx : BatchCtx) (oracle : IssueRequest → Option IssueData)
    (dry_run : Bool) (tickets : List Ticket) :
    List TicketResult × List (String × String) × List Ev :=
  ctbLoop ctx oracle dry_run tickets 0 []

/- ### Dependency relations (`create_dependency_relations`, lines 496-545)

`create_issue_relation` (lines 317-341) is abstracted by `relOracle`:
`false` means the request raised (its `success` return value is ignored
by the caller, so only raise / no-raise is observable). -/

/-- An `issueRelationCreate` request: the blocking issue, the blocked
issue, and the relation type. -/
structure RelReq where
  issueId : String
  relatedIssueId : String
  type : String
  deriving Repr, DecidableEq

/-- The warning printed at line 528 for a dependency absent from the id
map. -/
def depWarning (dep_id json_id : String) : String :=
  "  Warning: Dependency " ++ dep_id ++ " not found for " ++ json_id

/-- The inner loop over one ticket's dependencies (lines 526-543):
returns the relation count, the issued requests, the warnings printed,
and the event trace. -/
def depsLoop (id_map : List (String × String)) (relOracle : RelReq → Bool)
    (dry_run : Bool) (json_id issue_id : String) :
    List String → Nat × List RelReq × List String × List Ev
  | [] => (0, [], [], [])
  | dep_id :: rest =>
    let (c, reqs, warns, tr) := depsLoop id_map relOracle dry_run json_id issue_id rest
    match dlookup id_map dep_id with
    | none => (c, reqs, depWarning dep_id json_id :: warns, tr)
    | some blocking_issue_id =>
      if dry_run then (c, reqs, warns, tr)
      else
        let req : RelReq := ⟨blocking_issue_id, issue_id, "blocks"⟩
        if relOracle req then
          (c + 1, req :: reqs, warns, Ev.mutate "issueRelationCreate" :: Ev.sleep :: tr)
        else
          (c, req :: reqs, warns, Ev.mutateFail "issueRelationCreate" :: tr)

/-- The per-ticket body of `create_dependency_relations` (lines 514-524):
tickets with no dependencies, and tickets whose own id is absent from the
id map, are skipped silently. -/
def cdrTicket (id_map : List (String × String)) (relOracle : RelReq → Bool)
    (dry_run : Bool) (t : Ticket) : Nat × List RelReq × List String × List Ev :=
  if t.dependencies = [] then (0, [], [], [])
  else
    match dlookup id_map t.id with
    | none => (0, [], [], [])
    | some issue_id => depsLoop id_map relOracle dry_run t.id issue_id t.dependencies

/-- Function `create_dependency_relations`: fold the per-ticket outputs in input
order. -/
def create_dependency_relations (id_map : List (String × String))
    (relOracle : RelReq → Bool) (dry_run : Bool) (tickets : List Ticket) :
    Nat × List RelReq × List String × List Ev :=
  match tickets with
  | [] => (0, [], [], [])
  | t :: rest =>
    let (c, reqs, warns, tr) := cdrTicket id_map relOracle dry_run t
    let (c', reqs', warns', tr') := create_dependency_relations id_map relOracle dry_run rest
    (c + c', reqs ++ reqs', warns ++ warns', tr ++ tr')

/- ### Saving results (`save_results`, lines 548-552, and `main`,
lines 675-677) -/

/-- Function `save_results`: the JSON document written to the output file is the
results list itself. -/
def save_results (results : List TicketResult) : List TicketResult := results

/-- The tail of `main` (lines 655-677): run the batch, then persist the
results only when not in dry-run mode; `none` means no file is written. -/
def runSavedOutput (ctx : BatchCtx) (oracle : IssueRequest → Option IssueData)
    (dry_run : Bool) (tickets : List Ticket) : Option (List TicketResult) :=
  let (results, _, _) := create_tickets_batch ctx oracle dry_run tickets
  if dry_run then none else some (save_results results)

/- ### Characterization of `create_tickets_batch` -/

/-- The result record a ticket contributes in a real run: `none` when its
`create_issue` call raised. -/
def realResult (ctx : BatchCtx) (oracle : IssueRequest → Option IssueData)
    (t : Ticket) : Option TicketResult :=
  (oracle (issueRequestFor ctx t)).map (mkResult t)

/-- The id-map update a ticket performs in a real run. -/
def realStep (ctx : BatchCtx) (oracle : IssueRequest → Option IssueData)
    (m : List (String × String)) (t : Ticket) : List (String × String) :=
  match oracle (issueRequestFor ctx t) with
  | some issue => dinsert m t.id issue.id
  | none => m

/-- The events a ticket emits in a real run. -/
def realEvents (ctx : BatchCtx) (oracle : IssueRequest → Option IssueData)
    (t : Ticket) : List Ev :=
  match oracle (issueRequestFor ctx t) with
  | some _ => [Ev.mutate "issueCreate", Ev.sleep]
  | none => [Ev.mutateFail "issueCreate"]

/-- The id-map update a ticket performs in a dry run. -/
def dryStep (m : List (String × String)) (t : Ticket) : List (String × String) :=
  dinsert m t.id ("dry-run-" ++ t.id)

theorem ctbLoop_real (ctx : BatchCtx) (oracle : IssueRequest → Option IssueData) :
    ∀ (tickets : List Ticket) (i : Nat) (id_map : List (String × String)),
      ctbLoop ctx oracle false tickets i id_map =
        (tickets.filterMap (realResult ctx oracle),
         tickets.foldl (realStep ctx oracle) id_map,
         tickets.flatMap (realEvents ctx oracle)) := by
  intro tickets
  induction tickets with
  | nil => intro i id_map; rfl
  | cons t rest ih =>
    intro i id_map
    rcases h : oracle (issueRequestFor ctx t) with _ | issue <;>
      simp [ctbLoop, ih, realResult, realStep, realEvents, h]

theorem ctbLoop_dry (ctx : BatchCtx) (oracle : IssueRequest → Option IssueData) :
    ∀ (tickets : List Ticket) (i : Nat) (id_map : List (String × String)),
      ctbLoop ctx oracle true tickets i id_map =
        ((List.enumFrom i tickets).map (fun p => dryPlaceholder p.1 p.2),
         tickets.foldl dryStep id_map,
         []) := by
  intro tickets
  induction tickets with
  | nil => intro i id_map; rfl
  | cons t rest ih =>
    intro i id_map
    simp [ctbLoop, ih, dryStep, List.enumFrom_cons]

theorem ctbLoop_keys (ctx : BatchCtx) (oracle : IssueRequest → Option IssueData)
    (dry_run : Bool) :
    ∀ (tickets : List Ticket) (i : Nat) (id_map : List (String × String)) (k : String),
      k ∈ dkeys (ctbLoop ctx oracle dry_run tickets i id_map).2.1 ↔
        k ∈ dkeys id_map ∨
          k ∈ (ctbLoop ctx oracle dry_run tickets i id_map).1.map TicketResult.json_id := by
  intro tickets
  induction tickets with
  | nil => intro i id_map k; simp [ctbLoop]
  | cons t rest ih =>
    intro i id_map k
    by_cases hdr : dry_run
    · subst hdr
      rcases hrec : ctbLoop ctx oracle true rest (i + 1) (dinsert id_map t.id ("dry-run-" ++ t.id))
        with ⟨res, m, tr⟩
      have := ih (i + 1) (dinsert id_map t.id ("dry-run-" ++ t.id)) k
      rw [hrec] at this
      simp only [ctbLoop, Bool.false_eq_true, if_false, eq_self_iff_true, if_true, hrec]
      simp only [this, mem_dkeys_dinsert, dryPlaceholder, List.map_cons, List.mem_cons]
      tauto
    · simp only [Bool.not_eq_true] at hdr
      subst hdr
      rcases h : oracle (issueRequestFor ctx t) with _ | issue
      · rcases hrec : ctbLoop ctx oracle false rest (i + 1) id_map with ⟨res, m, tr⟩
        have := ih (i + 1) id_map k
        rw [hrec] at this
        simp only [ctbLoop, Bool.false_eq_true, if_false, eq_self_iff_true, if_true, h, hrec]
        simpa using this
      · rcases hrec : ctbLoop ctx oracle false rest (i + 1) (dinsert id_map t.id issue.id)
          with ⟨res, m, tr⟩
        have := ih (i + 1) (dinsert id_map t.id issue.id) k
        rw [hrec] at this
        simp only [ctbLoop, Bool.false_eq_true, if_false, eq_self_iff_true, if_true, h, hrec]
        simp only [this, mem_dkeys_dinsert, mkResult, List.map_cons, List.mem_cons]
        tauto

theorem ctbLoop_sublist (ctx : BatchCtx) (oracle : IssueRequest → Option IssueData)
    (dry_run : Bool) :
    ∀ (tickets : List Ticket) (i : Nat) (id_map : List (String × String)),
      ((ctbLoop ctx oracle dry_run tickets i id_map).1.map TicketResult.json_id).Sublist
        (tickets.map Ticket.id) := by
  intro tickets
  induction tickets with
  | nil => intro i id_map; simp [ctbLoop]
  | cons t rest ih =>
    intro i id_map
    by_cases hdr : dry_run
    · subst hdr
      rcases hrec : ctbLoop ctx oracle true rest (i + 1) (dinsert id_map t.id ("dry-run-" ++ t.id))
        with ⟨res, m, tr⟩
      have := ih (i + 1) (dinsert id_map t.id ("dry-run-" ++ t.id))
      rw [hrec] at this
      simp only [ctbLoop, Bool.false_eq_true, if_false, eq_self_iff_true, if_true, hrec]
      simpa [dryPlaceholder] using List.Sublist.cons₂ t.id this
    · simp only [Bool.not_eq_true] at hdr
      subst hdr
      rcases h : oracle (issueRequestFor ctx t) with _ | issue
      · rcases hrec : ctbLoop ctx oracle false rest (i + 1) id_map with ⟨res, m, tr⟩
        have := ih (i + 1) id_map
        rw [hrec] at this
        simp only [ctbLoop, Bool.false_eq_true, if_false, eq_self_iff_true, if_true, h, hrec]
        simpa using List.Sublist.cons t.id this
      · rcases hrec : ctbLoop ctx oracle false rest (i + 1) (dinsert id_map t.id issue.id)
          with ⟨res, m, tr⟩
        have := ih (i + 1) (dinsert id_map t.id issue.id)
        rw [hrec] at this
        simp only [ctbLoop, Bool.false_eq_true, if_false, eq_self_iff_true, if_true, h, hrec]
        simpa [mkResult] using List.Sublist.cons₂ t.id this

theorem ctbLoop_nodup_keys (ctx : BatchCtx) (oracle : IssueRequest → Option IssueData)
    (dry_run : Bool) :
    ∀ (tickets : List Ticket) (i : Nat) (id_map : List (String × String)),
      (dkeys id_map).Nodup →
        (dkeys (ctbLoop ctx oracle dry_run tickets i id_map).2.1).Nodup := by
  intro tickets
  induction tickets with
  | nil => intro i id_map h; simpa [ctbLoop] using h
  | cons t rest ih =>
    intro i id_map h
    by_cases hdr : dry_run
    · subst hdr
      rcases hrec : ctbLoop ctx oracle true rest (i + 1) (dinsert id_map t.id ("dry-run-" ++ t.id))
        with ⟨res, m, tr⟩
      have := ih (i + 1) (dinsert id_map t.id ("dry-run-" ++ t.id))
        (nodup_dkeys_dinsert _ _ _ h)
      rw [hrec] at this
      simpa only [ctbLoop, eq_self_iff_true, if_true, hrec] using this
    · simp only [Bool.not_eq_true] at hdr
      subst hdr
      rcases h' : oracle (issueRequestFor ctx t) with _ | issue
      · rcases hrec : ctbLoop ctx oracle false rest (i + 1) id_map with ⟨res, m, tr⟩
        have := ih (i + 1) id_map h
        rw [hrec] at this
        simpa only [ctbLoop, Bool.false_eq_true, if_false, h', hrec] using this
      · rcases hrec : ctbLoop ctx oracle false rest (i + 1) (dinsert id_map t.id issue.id)
          with ⟨res, m, tr⟩
        have := ih (i + 1) (dinsert id_map t.id issue.id) (nodup_dkeys_dinsert _ _ _ h)
        rw [hrec] at this
        simpa only [ctbLoop, Bool.false_eq_true, if_false, h', hrec] using this

/- ### Trace lemmas -/

theorem evOk_head (e r : Ev) (l l' : List Ev) : evOk e (r :: l) = evOk e (r :: l') := by
  cases e <;> cases r <;> rfl

theorem evOk_of_nil (e : Ev) (h : evOk e [] = true) (l : List Ev) : evOk e l = true := by
  cases e with
  | mutate s => simp [evOk] at h
  | query s => cases l with
    | nil => rfl
    | cons r l => cases r <;> rfl
  | mutateFail s => cases l with
    | nil => rfl
    | cons r l => cases r <;> rfl
  | sleep => cases l with
    | nil => rfl
    | cons r l => cases r <;> rfl

theorem mfs_append (a b : List Ev) (ha : mutFollowedBySleep a = true)
    (hb : mutFollowedBySleep b = true) : mutFollowedBySleep (a ++ b) = true := by
  induction a with
  | nil => simpa using hb
  | cons e rest ih =>
    simp only [mutFollowedBySleep, Bool.and_eq_true] at ha
    obtain ⟨h1, h2⟩ := ha
    have hr := ih h2
    simp only [List.cons_append, mutFollowedBySleep, Bool.and_eq_true]
    refine ⟨?_, hr⟩
    cases rest with
    | nil => exact evOk_of_nil e h1 b
    | cons r rs =>
      show evOk e (r :: (rs ++ b)) = true
      rw [evOk_head e r (rs ++ b) rs]; exact h1

theorem mfs_mutate_sleep (s : String) (tr : List Ev)
    (h : mutFollowedBySleep tr = true) :
    mutFollowedBySleep (Ev.mutate s :: Ev.sleep :: tr) = true := by
  simp only [mutFollowedBySleep, Bool.and_eq_true]
  exact ⟨rfl, evOk_of_nil Ev.sleep rfl tr, h⟩

theorem mfs_mutateFail (s : String) (tr : List Ev)
    (h : mutFollowedBySleep tr = true) :
    mutFollowedBySleep (Ev.mutateFail s :: tr) = true := by
  simp only [mutFollowedBySleep, Bool.and_eq_true]
  exact ⟨evOk_of_nil (Ev.mutateFail s) rfl tr, h⟩

theorem mfs_query (s : String) (tr : List Ev)
    (h : mutFollowedBySleep tr = true) :
    mutFollowedBySleep (Ev.query s :: tr) = true := by
  simp only [mutFollowedBySleep, Bool.and_eq_true]
  exact ⟨evOk_of_nil (Ev.query s) rfl tr, h⟩

theorem flatMap_realEvents_mfs (ctx : BatchCtx) (oracle : IssueRequest → Option IssueData) :
    ∀ tickets : List Ticket,
      mutFollowedBySleep (tickets.flatMap (realEvents ctx oracle)) = true := by
  intro tickets
  induction tickets with
  | nil => rfl
  | cons t rest ih =>
    rw [List.flatMap_cons]
    refine mfs_append _ _ ?_ ih
    rcases h : oracle (issueRequestFor ctx t) with _ | issue <;> simp [realEvents, h] <;> rfl

/- ### Characterization of `create_dependency_relations` -/

/-- The relation request an edge gives rise to, when its blocker is in
the id map. -/
def edgeReq (id_map : List (String × String)) (issue_id dep_id : String) : Option RelReq :=
  (dlookup id_map dep_id).map (fun blocking_issue_id => ⟨blocking_issue_id, issue_id, "blocks"⟩)

/-- The warning an edge gives rise to, when its blocker is missing from
the id map (and the blocked ticket's id is present). -/
def edgeWarn (id_map : List (String × String)) (json_id dep_id : String) : Option String :=
  if dlookup id_map dep_id = none then some (depWarning dep_id json_id) else none

/-- The relation requests the pass issues, per the specification: one
per declared dependency edge whose two endpoints are in the id map. -/
def specRelReqs (id_map : List (String × String)) (tickets : List Ticket) : List RelReq :=
  tickets.flatMap fun t =>
    match dlookup id_map t.id with
    | none => []
    | some issue_id => t.dependencies.filterMap (edgeReq id_map issue_id)

/-- The warnings the pass prints: one per dependency whose blocker is
missing from the id map, for tickets whose own id is present. -/
def specRelWarns (id_map : List (String × String)) (tickets : List Ticket) : List String :=
  tickets.flatMap fun t =>
    match dlookup id_map t.id with
    | none => []
    | some _ => t.dependencies.filterMap (edgeWarn id_map t.id)

theorem depsLoop_reqs (id_map : List (String × String)) (relOracle : RelReq → Bool)
    (json_id issue_id : String) :
    ∀ deps : List String,
      (depsLoop id_map relOracle false json_id issue_id deps).2.1 =
        deps.filterMap (edgeReq id_map issue_id) := by
  intro deps
  induction deps with
  | nil => rfl
  | cons dep rest ih =>
    rcases hrec : depsLoop id_map relOracle false json_id issue_id rest with ⟨c, reqs, warns, tr⟩
    rw [hrec] at ih
    dsimp only at ih
    rcases hl : dlookup id_map dep with _ | bid
    · simp [depsLoop, hrec, hl, edgeReq, ih]
    · rcases hro : relOracle ⟨bid, issue_id, "blocks"⟩ with _ | _ <;>
        simp [depsLoop, hrec, hl, hro, edgeReq, ih]

theorem depsLoop_warns (id_map : List (String × String)) (relOracle : RelReq → Bool)
    (dry_run : Bool) (json_id issue_id : String) :
    ∀ deps : List String,
      (depsLoop id_map relOracle dry_run json_id issue_id deps).2.2.1 =
        deps.filterMap (edgeWarn id_map json_id) := by
  intro deps
  induction deps with
  | nil => rfl
  | cons dep rest ih =>
    rcases hrec : depsLoop id_map relOracle dry_run json_id issue_id rest with ⟨c, reqs, warns, tr⟩
    rw [hrec] at ih
    dsimp only at ih
    rcases hl : dlookup id_map dep with _ | bid
    · simp [depsLoop, hrec, hl, edgeWarn, ih]
    · by_cases hdr : dry_run
      · subst hdr; simp [depsLoop, hrec, hl, edgeWarn, ih]
      · simp only [Bool.not_eq_true] at hdr
        subst hdr
        rcases hro : relOracle ⟨bid, issue_id, "blocks"⟩ with _ | _ <;>
          simp [depsLoop, hrec, hl, hro, edgeWarn, ih]

theorem depsLoop_mfs (id_map : List (String × String)) (relOracle : RelReq → Bool)
    (dry_run : Bool) (json_id issue_id : String) :
    ∀ deps : List String,
      mutFollowedBySleep (depsLoop id_map relOracle dry_run json_id issue_id deps).2.2.2 = true := by
  intro deps
  induction deps with
  | nil => rfl
  | cons dep rest ih =>
    rcases hrec : depsLoop id_map relOracle dry_run json_id issue_id rest with ⟨c, reqs, warns, tr⟩
    rw [hrec] at ih
    dsimp only at ih
    rcases hl : dlookup id_map dep with _ | bid
    · simpa [depsLoop, hrec, hl] using ih
    · by_cases hdr : dry_run
      · subst hdr; simpa [depsLoop, hrec, hl] using ih
      · simp only [Bool.not_eq_true] at hdr
        subst hdr
        rcases hro : relOracle ⟨bid, issue_id, "blocks"⟩ with _ | _
        · simpa [depsLoop, hrec, hl, hro] using mfs_mutateFail "issueRelationCreate" tr ih
        · simpa [depsLoop, hrec, hl, hro] using mfs_mutate_sleep "issueRelationCreate" tr ih

theorem cdrTicket_reqs (id_map : List (String × String)) (relOracle : RelReq → Bool)
    (t : Ticket) :
    (cdrTicket id_map relOracle false t).2.1 =
      match dlookup id_map t.id with
      | none => []
      | some issue_id => t.dependencies.filterMap (edgeReq id_map issue_id) := by
  by_cases hd : t.dependencies = []
  · rcases hl : dlookup id_map t.id with _ | iid <;> simp [cdrTicket, hd, hl]
  · rcases hl : dlookup id_map t.id with _ | iid <;>
      simp [cdrTicket, hd, hl, depsLoop_reqs]

theorem cdrTicket_warns (id_map : List (String × String)) (relOracle : RelReq → Bool)
    (dry_run : Bool) (t : Ticket) :
    (cdrTicket id_map relOracle dry_run t).2.2.1 =
      match dlookup id_map t.id with
      | none => []
      | some _ => t.dependencies.filterMap (edgeWarn id_map t.id) := by
  by_cases hd : t.dependencies = []
  · rcases hl : dlookup id_map t.id with _ | iid <;> simp [cdrTicket, hd, hl]
  · rcases hl : dlookup id_map t.id with _ | iid <;>
      simp [cdrTicket, hd, hl, depsLoop_warns]

theorem cdrTicket_mfs (id_map : List (String × String)) (relOracle : RelReq → Bool)
    (dry_run : Bool) (t : Ticket) :
    mutFollowedBySleep (cdrTicket id_map relOracle dry_run t).2.2.2 = true := by
  by_cases hd : t.dependencies = []
  · rcases hl : dlookup id_map t.id with _ | iid <;> simp [cdrTicket, hd, hl] <;> rfl
  · rcases hl : dlookup id_map t.id with _ | iid
    · simp [cdrTicket, hd, hl]; rfl
    · simpa [cdrTicket, hd, hl] using depsLoop_mfs id_map relOracle dry_run t.id iid t.dependencies

theorem cdr_reqs (id_map : List (String × String)) (relOracle : RelReq → Bool) :
    ∀ tickets : List Ticket,
      (create_dependency_relations id_map relOracle false tickets).2.1 =
        specRelReqs id_map tickets := by
  intro tickets
  induction tickets with
  | nil => rfl
  | cons t rest ih =>
    rcases hh : cdrTicket id_map relOracle false t with ⟨c, reqs, warns, tr⟩
    rcases hrec : create_dependency_relations id_map relOracle false rest with ⟨c', reqs', warns', tr'⟩
    rw [hrec] at ih
    dsimp only at ih
    have ht := cdrTicket_reqs id_map relOracle t
    rw [hh] at ht
    dsimp only at ht
    simp only [create_dependency_relations, hh, hrec, specRelReqs, List.flatMap_cons]
    simp only [specRelReqs] at ih
    rw [ih, ht]

theorem cdr_warns (id_map : List (String × String)) (relOracle : RelReq → Bool)
    (dry_run : Bool) :
    ∀ tickets : List Ticket,
      (create_dependency_relations id_map relOracle dry_run tickets).2.2.1 =
        specRelWarns id_map tickets := by
  intro tickets
  induction tickets with
  | nil => rfl
  | cons t rest ih =>
    rcases hh : cdrTicket id_map relOracle dry_run t with ⟨c, reqs, warns, tr⟩
    rcases hrec : create_dependency_relations id_map relOracle dry_run rest with ⟨c', reqs', warns', tr'⟩
    rw [hrec] at ih
    dsimp only at ih
    have ht := cdrTicket_warns id_map relOracle dry_run t
    rw [hh] at ht
    dsimp only at ht
    simp only [create_dependency_relations, hh, hrec, specRelWarns, List.flatMap_cons]
    simp only [specRelWarns] at ih
    rw [ih, ht]

theorem cdr_mfs (id_map : List (String × String)) (relOracle : RelReq → Bool)
    (dry_run : Bool) :
    ∀ tickets : List Ticket,
      mutFollowedBySleep (create_dependency_relations id_map relOracle dry_run tickets).2.2.2 = true := by
  intro tickets
  induction tickets with
  | nil => rfl
  | cons t rest ih =>
    rcases hh : cdrTicket id_map relOracle dry_run t with ⟨c, reqs, warns, tr⟩
    rcases hrec : create_dependency_relations id_map relOracle dry_run rest with ⟨c', reqs', warns', tr'⟩
    rw [hrec] at ih
    dsimp only at ih
    have ht := cdrTicket_mfs id_map relOracle dry_run t
    rw [hh] at ht
    dsimp only at ht
    simp only [create_dependency_relations, hh, hrec]
    exact mfs_append tr tr' ht ih

/- ### Characterization of `get_or_create_labels` -/

theorem golLoop_mfs (mkId : String → String) :
    ∀ (names : List String) (result existing : List (String × String)),
      mutFollowedBySleep (golLoop mkId names result existing).2.2 = true := by
  intro names
  induction names with
  | nil => intro result existing; rfl
  | cons name rest ih =>
    intro result existing
    rcases hl : dlookup existing name.toLower with _ | lid
    · rcases hrec : golLoop mkId rest (dinsert result name (mkId name))
        (dinsert existing name.toLower (mkId name)) with ⟨res, crs, tr⟩
      have := ih (dinsert result name (mkId name)) (dinsert existing name.toLower (mkId name))
      rw [hrec] at this
      try dsimp only at this
      simpa [golLoop, hl, hrec] using mfs_mutate_sleep "issueLabelCreate" tr this
    · simpa [golLoop, hl] using ih (dinsert result name lid) existing

theorem get_or_create_labels_mfs (mkId : String → String) (nodes : List (String × String))
    (label_names : List String) :
    mutFollowedBySleep (get_or_create_labels mkId nodes label_names).2.2 = true := by
  rcases hrec : golLoop mkId label_names [] (buildExisting nodes) with ⟨res, crs, tr⟩
  have := golLoop_mfs mkId label_names [] (buildExisting nodes)
  rw [hrec] at this
  try dsimp only at this
  simpa [get_or_create_labels, hrec] using mfs_query "GetLabels" tr this

theorem golLoop_keys (mkId : String → String) :
    ∀ (names : List String) (result existing : List (String × String)) (n : String),
      (dlookup (golLoop mkId names result existing).1 n).isSome ↔
        (dlookup result n).isSome ∨ n ∈ names := by
  intro names
  induction names with
  | nil => intro result existing n; simp [golLoop]
  | cons name rest ih =>
    intro result existing n
    rcases hl : dlookup existing name.toLower with _ | lid
    · rcases hrec : golLoop mkId rest (dinsert result name (mkId name))
        (dinsert existing name.toLower (mkId name)) with ⟨res, crs, tr⟩
      have hrw := ih (dinsert result name (mkId name)) (dinsert existing name.toLower (mkId name)) n
      rw [hrec] at hrw
      try dsimp only at hrw
      simp only [golLoop, hl, hrec]
      try dsimp only
      rw [hrw, dlookup_dinsert]
      by_cases hn : n = name
      · simp [hn]
      · simp only [if_neg hn, List.mem_cons]
        tauto
    · have hrw := ih (dinsert result name lid) existing n
      simp only [golLoop, hl]
      rw [hrw, dlookup_dinsert]
      by_cases hn : n = name
      · simp [hn]
      · simp only [if_neg hn, List.mem_cons]
        tauto

theorem golLoop_creations (mkId : String → String) :
    ∀ (names : List String) (result existing : List (String × String)),
      ((golLoop mkId names result existing).2.1.map String.toLower).Nodup ∧
        ∀ c ∈ (golLoop mkId names result existing).2.1,
          dlookup existing c.toLower = none ∧ c ∈ names := by
  intro names
  induction names with
  | nil =>
    intro result existing
    exact ⟨List.nodup_nil, by simp [golLoop]⟩
  | cons name rest ih =>
    intro result existing
    rcases hl : dlookup existing name.toLower with _ | lid
    · rcases hrec : golLoop mkId rest (dinsert result name (mkId name))
        (dinsert existing name.toLower (mkId name)) with ⟨res, crs, tr⟩
      obtain ⟨hnd, hc⟩ := ih (dinsert result name (mkId name))
        (dinsert existing name.toLower (mkId name))
      rw [hrec] at hnd hc
      try dsimp only at hnd hc
      constructor
      · simp only [golLoop, hl, hrec]
        try dsimp only
        simp only [List.map_cons, List.nodup_cons]
        refine ⟨fun hmem => ?_, hnd⟩
        obtain ⟨c, hcmem, hceq⟩ := List.mem_map.mp hmem
        have hnone := (hc c hcmem).1
        rw [dlookup_dinsert, if_pos hceq] at hnone
        simp at hnone
      · intro c hcmem
        simp only [golLoop, hl, hrec] at hcmem
        try dsimp only at hcmem
        rcases List.mem_cons.mp hcmem with rfl | hcmem'
        · exact ⟨hl, List.mem_cons_self _ _⟩
        · have h1 := (hc c hcmem').1
          rw [dlookup_dinsert] at h1
          by_cases hcl : c.toLower = name.toLower
          · rw [if_pos hcl] at h1
            exact absurd h1 (by simp)
          · rw [if_neg hcl] at h1
            exact ⟨h1, List.mem_cons_of_mem _ (hc c hcmem').2⟩
    · obtain ⟨hnd, hc⟩ := ih (dinsert result name lid) existing
      constructor
      · simpa [golLoop, hl] using hnd
      · intro c hcmem
        simp only [golLoop, hl] at hcmem
        exact ⟨(hc c hcmem).1, List.mem_cons_of_mem _ (hc c hcmem).2⟩

theorem golLoop_values (mkId : String → String) (E0 : List (String × String)) :
    ∀ (names : List String) (result existing : List (String × String)) (C0 : List String),
      (∀ key w, dlookup existing key = some w →
        dlookup E0 key = some w ∨ ∃ c ∈ C0, c.toLower = key ∧ w = mkId c) →
      (∀ n w, dlookup result n = some w →
        dlookup E0 n.toLower = some w ∨ ∃ c ∈ C0, c.toLower = n.toLower ∧ w = mkId c) →
      ∀ n v, dlookup (golLoop mkId names result existing).1 n = some v →
        dlookup E0 n.toLower = some v ∨
          ∃ c ∈ C0 ++ (golLoop mkId names result existing).2.1,
            c.toLower = n.toLower ∧ v = mkId c := by
  intro names
  induction names with
  | nil =>
    intro result existing C0 hE hR n v hv
    simp only [golLoop] at hv ⊢
    rcases hR n v hv with h | ⟨c, hc1, hc2⟩
    · exact Or.inl h
    · exact Or.inr ⟨c, by simpa using hc1, hc2⟩
  | cons name rest ih =>
    intro result existing C0 hE hR n v hv
    rcases hl : dlookup existing name.toLower with _ | lid
    · rcases hrec : golLoop mkId rest (dinsert result name (mkId name))
        (dinsert existing name.toLower (mkId name)) with ⟨res, crs, tr⟩
      have hE' : ∀ key w,
          dlookup (dinsert existing name.toLower (mkId name)) key = some w →
          dlookup E0 key = some w ∨ ∃ c ∈ C0 ++ [name], c.toLower = key ∧ w = mkId c := by
        intro key w hw
        rw [dlookup_dinsert] at hw
        by_cases hk : key = name.toLower
        · rw [if_pos hk] at hw
          refine Or.inr ⟨name, List.mem_append_right _ (List.mem_singleton.mpr rfl),
            hk.symm, (Option.some.inj hw).symm⟩
        · rw [if_neg hk] at hw
          rcases hE key w hw with h | ⟨c, hc1, hc2⟩
          · exact Or.inl h
          · exact Or.inr ⟨c, List.mem_append_left _ hc1, hc2⟩
      have hR' : ∀ n' w, dlookup (dinsert result name (mkId name)) n' = some w →
          dlookup E0 n'.toLower = some w ∨
            ∃ c ∈ C0 ++ [name], c.toLower = n'.toLower ∧ w = mkId c := by
        intro n' w hw
        rw [dlookup_dinsert] at hw
        by_cases hn : n' = name
        · rw [if_pos hn] at hw
          refine Or.inr ⟨name, List.mem_append_right _ (List.mem_singleton.mpr rfl),
            by rw [hn], (Option.some.inj hw).symm⟩
        · rw [if_neg hn] at hw
          rcases hR n' w hw with h | ⟨c, hc1, hc2⟩
          · exact Or.inl h
          · exact Or.inr ⟨c, List.mem_append_left _ hc1, hc2⟩
      have hv' : dlookup res n = some v := by
        simp only [golLoop, hl, hrec] at hv
        try dsimp only at hv
        exact hv
      have hout := ih (dinsert result name (mkId name))
        (dinsert existing name.toLower (mkId name)) (C0 ++ [name]) hE' hR' n v
        (by rw [hrec]; exact hv')
      rw [hrec] at hout
      try dsimp only at hout
      rcases hout with h | ⟨c, hc1, hc2⟩
      · exact Or.inl h
      · refine Or.inr ⟨c, ?_, hc2⟩
        simp only [golLoop, hl, hrec]
        try dsimp only
        simp only [List.append_assoc, List.singleton_append] at hc1
        exact hc1
    · have hR' : ∀ n' w, dlookup (dinsert result name lid) n' = some w →
          dlookup E0 n'.toLower = some w ∨
            ∃ c ∈ C0, c.toLower = n'.toLower ∧ w = mkId c := by
        intro n' w hw
        rw [dlookup_dinsert] at hw
        by_cases hn : n' = name
        · rw [if_pos hn] at hw
          have hwl : w = lid := (Option.some.inj hw).symm
          rcases hE name.toLower lid hl with h | ⟨c, hc1, hc2, hc3⟩
          · exact Or.inl (by rw [hn, hwl]; exact h)
          · exact Or.inr ⟨c, hc1, by rw [hn]; exact hc2, by rw [hwl]; exact hc3⟩
        · rw [if_neg hn] at hw
          exact hR n' w hw
      have hout := ih (dinsert result name lid) existing C0 hE hR' n v
        (by simp only [golLoop, hl] at hv; exact hv)
      simpa [golLoop, hl] using hout

/- ### Characterization of `collect_all_labels` -/

theorem mem_labels_foldl (labels : List String) :
    ∀ (s : Finset String) (x : String),
      x ∈ labels.foldl (fun labels label => insert label labels) s ↔
        x ∈ s ∨ x ∈ labels := by
  induction labels with
  | nil => intro s x; simp
  | cons l rest ih =>
    intro s x
    simp only [List.foldl_cons, ih, Finset.mem_insert, List.mem_cons]
    tauto

theorem mem_collectTicketStep (s : Finset String) (t : Ticket) (x : String) :
    x ∈ collectTicketStep s t ↔
      x ∈ s ∨ x ∈ t.labels ∨ (t.phase.getD "" ≠ "" ∧ x = t.phase.getD "") := by
  simp only [collectTicketStep]
  by_cases hp : t.phase.getD "" = ""
  · rw [if_neg (by simp [hp]), mem_labels_foldl]
    simp [hp]
  · rw [if_pos (by simpa using hp), Finset.mem_insert, mem_labels_foldl]
    constructor
    · rintro (h | h | h)
      · exact Or.inr (Or.inr ⟨hp, h⟩)
      · exact Or.inl h
      · exact Or.inr (Or.inl h)
    · rintro (h | h | ⟨_, h⟩)
      · exact Or.inr (Or.inl h)
      · exact Or.inr (Or.inr h)
      · exact Or.inl h

theorem mem_collect_foldl :
    ∀ (tickets : List Ticket) (s : Finset String) (x : String),
      x ∈ tickets.foldl collectTicketStep s ↔
        x ∈ s ∨ ∃ t ∈ tickets,
          x ∈ t.labels ∨ (t.phase.getD "" ≠ "" ∧ x = t.phase.getD "") := by
  intro tickets
  induction tickets with
  | nil => intro s x; simp
  | cons t rest ih =>
    intro s x
    simp only [List.foldl_cons, ih, mem_collectTicketStep, List.mem_cons]
    constructor
    · rintro ((h | h | h) | ⟨t', ht', h⟩)
      · exact Or.inl h
      · exact Or.inr ⟨t, Or.inl rfl, Or.inl h⟩
      · exact Or.inr ⟨t, Or.inl rfl, Or.inr h⟩
      · exact Or.inr ⟨t', Or.inr ht', h⟩
    · rintro (h | ⟨t', rfl | ht', h⟩)
      · exact Or.inl (Or.inl h)
      · rcases h with h | h
        · exact Or.inl (Or.inr (Or.inl h))
        · exact Or.inl (Or.inr (Or.inr h))
      · exact Or.inr ⟨t', ht', h⟩

/-- The phase name of a ticket, as a set: empty when the ticket has no
(non-empty) phase. -/
def phaseNameSet (t : Ticket) : Finset String :=
  match t.phase with
  | none => ∅
  | some p => if p = "" then ∅ else {p}

/-- The union, over all tickets, of each ticket's explicit labels and its
phase name — the specification's description of the collected label set. -/
def specLabelUnion (tickets : List Ticket) : Finset String :=
  tickets.foldr (fun t acc => t.labels.toFinset ∪ phaseNameSet t ∪ acc) ∅

theorem mem_phaseNameSet (t : Ticket) (x : String) :
    x ∈ phaseNameSet t ↔ (t.phase.getD "" ≠ "" ∧ x = t.phase.getD "") := by
  rcases hp : t.phase with _ | p
  · simp [phaseNameSet, hp]
  · by_cases h : p = "" <;> simp [phaseNameSet, hp, h]

theorem mem_specLabelUnion :
    ∀ (tickets : List Ticket) (x : String),
      x ∈ specLabelUnion tickets ↔
        ∃ t ∈ tickets, x ∈ t.labels ∨ x ∈ phaseNameSet t := by
  intro tickets
  induction tickets with
  | nil => intro x; simp [specLabelUnion]
  | cons t rest ih =>
    intro x
    simp only [specLabelUnion, List.foldr_cons, Finset.mem_union, List.mem_toFinset,
      List.mem_cons]
    constructor
    · rintro ((h | h) | h)
      · exact ⟨t, Or.inl rfl, Or.inl h⟩
      · exact ⟨t, Or.inl rfl, Or.inr h⟩
      · obtain ⟨t', ht', h'⟩ := (ih x).mp h
        exact ⟨t', Or.inr ht', h'⟩
    · rintro ⟨t', rfl | ht', h⟩
      · rcases h with h | h
        · exact Or.inl (Or.inl h)
        · exact Or.inl (Or.inr h)
      · exact Or.inr ((ih x).mpr ⟨t', ht', h⟩)


theorem mem_map_json_id_filterMap (ctx : BatchCtx)
    (oracle : IssueRequest → Option IssueData) (tickets : List Ticket) (k : String) :
    k ∈ (tickets.filterMap (realResult ctx oracle)).map TicketResult.json_id ↔
      ∃ t ∈ tickets, t.id = k ∧ (oracle (issueRequestFor ctx t)).isSome := by
  simp only [List.mem_map, List.mem_filterMap]
  constructor
  · rintro ⟨r, ⟨t, ht, hr⟩, rfl⟩
    rcases ho : oracle (issueRequestFor ctx t) with _ | issue
    · rw [realResult, ho] at hr
      simp at hr
    · rw [realResult, ho] at hr
      simp only [Option.map_some'] at hr
      refine ⟨t, ht, ?_, by simp [ho]⟩
      rw [← Option.some.inj hr]
      rfl
  · rintro ⟨t, ht, rfl, hs⟩
    rcases ho : oracle (issueRequestFor ctx t) with _ | issue
    · rw [ho] at hs
      simp at hs
    · exact ⟨mkResult t issue, ⟨t, ht, by simp [realResult, ho]⟩, rfl⟩

/- ### Concrete fixtures for witnesses and counterexamples -/

/-- A concrete ticket: id `LIC-1`, priority 1, no dependencies. -/
def ticketLIC1 : Ticket :=
  ⟨"LIC-1", "Ticket one", "First ticket", some "phase-0", ["backend"], some 1, [], []⟩

/-- A concrete ticket: id `LIC-2`, no priority, depending on `LIC-1`. -/
def ticketLIC2 : Ticket :=
  ⟨"LIC-2", "Ticket two", "Second ticket", some "phase-0", [], none, ["LIC-1"], []⟩

/-- A concrete ticket whose priority 9 is outside the priority map. -/
def ticketLIC3 : Ticket :=
  ⟨"LIC-3", "Ticket three", "Third ticket", none, ["ui"], some 9, [], []⟩

/-- A concrete batch context. -/
def ctx0 : BatchCtx :=
  ⟨"team-1", [("backend", "lbl-1"), ("phase-0", "lbl-2")], "state-1", some "proj-1",
    "https://example.test"⟩

/-- An issue-creation oracle on which every call raises. -/
def oracle0 : IssueRequest → Option IssueData := fun _ => none

/-- A label-id generator for witnesses. -/
def mkId0 : String → String := fun n => "new-" ++ n

/-- A relation oracle on which every call succeeds. -/
def relOracle0 : RelReq → Bool := fun _ => true

/- ### The claims -/

/-- Claim C1, counterexample: for the ticket list `[LIC-2]` (LIC-2
declares the dependency edge LIC-1 → LIC-2) and an id map containing only
`LIC-1`, the blocked ticket's id is absent from the id map, and the
relation pass skips the edge (no request is issued) but prints no warning
at all — contradicting the claim that an edge with a missing endpoint is
skipped *with a warning message*. -/
theorem claim_C1_counterexample :
    (create_dependency_relations [("LIC-1", "iss-a")] relOracle0 false [ticketLIC2]).2.1 = [] ∧
    (create_dependency_relations [("LIC-1", "iss-a")] relOracle0 false [ticketLIC2]).2.2.1 = [] := by
  exact ⟨rfl, rfl⟩

/-- Claim C1 (amended): the dependency-relation pass examines each
declared dependency edge; an edge with either endpoint absent from the id
map is skipped and is not fatal — with a warning message when the
blocker's id is missing but the blocked ticket's id is present, and
silently when the blocked ticket's id is missing — and every other edge
whose two endpoints are present is still processed: the issued requests
are exactly `specRelReqs` and the printed warnings exactly
`specRelWarns`. -/
theorem claim_C1 (id_map : List (String × String)) (relOracle : RelReq → Bool)
    (tickets : List Ticket) :
    (create_dependency_relations id_map relOracle false tickets).2.1 =
      specRelReqs id_map tickets ∧
    (create_dependency_relations id_map relOracle false tickets).2.2.1 =
      specRelWarns id_map tickets :=
  ⟨cdr_reqs id_map relOracle tickets, cdr_warns id_map relOracle false tickets⟩

/-- Claim C2: for a ticket with id `LIC-2` and dependencies `["LIC-1"]`,
when the id map contains both, the relation pass issues exactly one
"blocks" relation request, whose `issueId` is the id mapped from `LIC-1`
and whose `relatedIssueId` is the id mapped from `LIC-2`. -/
theorem claim_C2 (t : Ticket) (id_map : List (String × String)) (a b : String)
    (relOracle : RelReq → Bool)
    (hid : t.id = "LIC-2") (hdeps : t.dependencies = ["LIC-1"])
    (ha : dlookup id_map "LIC-1" = some a) (hb : dlookup id_map "LIC-2" = some b) :
    (create_dependency_relations id_map relOracle false [t]).2.1 =
      [⟨a, b, "blocks"⟩] := by
  rw [cdr_reqs id_map relOracle [t]]
  simp [specRelReqs, hid, hb, hdeps, edgeReq, ha]

/-- Claim C2, witness at a concrete ticket and id map. -/
theorem claim_C2_witness :
    (create_dependency_relations [("LIC-1", "iss-a"), ("LIC-2", "iss-b")] relOracle0 false
        [ticketLIC2]).2.1 = [⟨"iss-a", "iss-b", "blocks"⟩] :=
  claim_C2 ticketLIC2 [("LIC-1", "iss-a"), ("LIC-2", "iss-b")] "iss-a" "iss-b" relOracle0
    rfl rfl rfl rfl

/-- Claim C3: the priority put in the issue-creation request is total and
deterministic: input priorities 1, 2, 3, 4 map to 1, 2, 3, 4; a missing
priority or one outside the map becomes 3 (Normal). -/
theorem claim_C3 (ctx : BatchCtx) (t : Ticket) :
    (t.priority = some 1 → (issueRequestFor ctx t).priority = 1) ∧
    (t.priority = some 2 → (issueRequestFor ctx t).priority = 2) ∧
    (t.priority = some 3 → (issueRequestFor ctx t).priority = 3) ∧
    (t.priority = some 4 → (issueRequestFor ctx t).priority = 4) ∧
    (t.priority = none → (issueRequestFor ctx t).priority = 3) ∧
    (∀ p : Int, t.priority = some p → p ≠ 1 → p ≠ 2 → p ≠ 3 → p ≠ 4 →
      (issueRequestFor ctx t).priority = 3) := by
  refine ⟨fun h => ?_, fun h => ?_, fun h => ?_, fun h => ?_, fun h => ?_,
    fun p h h1 h2 h3 h4 => ?_⟩ <;>
    simp [issueRequestFor, ticketPriority, PRIORITY_MAP, h]
  simp [h1, h2, h3, h4]

/-- Claim C3, witness at concrete tickets with priority 1, missing
priority, and unmapped priority 9. -/
theorem claim_C3_witness :
    (issueRequestFor ctx0 ticketLIC1).priority = 1 ∧
    (issueRequestFor ctx0 ticketLIC2).priority = 3 ∧
    (issueRequestFor ctx0 ticketLIC3).priority = 3 :=
  ⟨(claim_C3 ctx0 ticketLIC1).1 rfl,
   (claim_C3 ctx0 ticketLIC2).2.2.2.2.1 rfl,
   (claim_C3 ctx0 ticketLIC3).2.2.2.2.2 9 rfl (by decide) (by decide) (by decide) (by decide)⟩

/-- Claim C4: the label resolver (a) returns a mapping whose keys are
exactly the requested names in their original case; (b) sends at most one
creation request per distinct case-insensitive name, (c) only for names
not already existing remotely (matching case-insensitively); and (d) maps
each requested name to the id of the case-insensitively matching existing
label or to the id of the newly created label. -/
theorem claim_C4 (mkId : String → String) (nodes : List (String × String))
    (label_names : List String) :
    (∀ n, (dlookup (get_or_create_labels mkId nodes label_names).1 n).isSome ↔
      n ∈ label_names) ∧
    ((get_or_create_labels mkId nodes label_names).2.1.map String.toLower).Nodup ∧
    (∀ c ∈ (get_or_create_labels mkId nodes label_names).2.1,
      dlookup (buildExisting nodes) c.toLower = none ∧ c ∈ label_names) ∧
    (∀ n v, dlookup (get_or_create_labels mkId nodes label_names).1 n = some v →
      dlookup (buildExisting nodes) n.toLower = some v ∨
        ∃ c ∈ (get_or_create_labels mkId nodes label_names).2.1,
          c.toLower = n.toLower ∧ v = mkId c) := by
  rcases hrec : golLoop mkId label_names [] (buildExisting nodes) with ⟨res, crs, tr⟩
  have hkeys := golLoop_keys mkId label_names [] (buildExisting nodes)
  have hcrs := golLoop_creations mkId label_names [] (buildExisting nodes)
  have hvals := golLoop_values mkId (buildExisting nodes) label_names [] (buildExisting nodes) []
    (fun key w hw => Or.inl hw) (fun n w hw => by simp [dlookup] at hw)
  rw [hrec] at hkeys hcrs hvals
  simp only [get_or_create_labels, hrec]
  refine ⟨fun n => ?_, hcrs.1, hcrs.2, fun n v hv => ?_⟩
  · have := hkeys n
    simpa [dlookup] using this
  · have := hvals n v hv
    simpa using this

/-- Claim C4, witness: with no existing remote labels and the single
requested name `backend`, the key `backend` is present in the returned
mapping and its value is the id of the matching existing label or of the
newly created one. -/
theorem claim_C4_witness :
    ((dlookup (get_or_create_labels mkId0 [] ["backend"]).1 "backend").isSome) ∧
    (dlookup (buildExisting []) "backend".toLower = some "new-backend" ∨
      ∃ c ∈ (get_or_create_labels mkId0 [] ["backend"]).2.1,
        c.toLower = "backend".toLower ∧ "new-backend" = mkId0 c) :=
  ⟨((claim_C4 mkId0 [] ["backend"]).1 "backend").mpr (by simp),
   (claim_C4 mkId0 [] ["backend"]).2.2.2 "backend" "new-backend" (by decide)⟩

/-- Claim C5, counterexample: in a dry run over one ticket the batch
produces one (placeholder) result record, yet `main` writes nothing to
the output file, contradicting the claim that the results are persisted
at the end of every run *including a dry run*. -/
theorem claim_C5_counterexample :
    runSavedOutput ctx0 oracle0 true [ticketLIC1] = none ∧
    (create_tickets_batch ctx0 oracle0 true [ticketLIC1]).1.length = 1 :=
  ⟨rfl, rfl⟩

/-- Claim C5 (amended): at the end of every non-dry run, the result
writer persists to the output file a JSON array containing exactly one
`{json_id, linear_id, identifier, url}` record per successfully created
ticket; in a dry run nothing is persisted. -/
theorem claim_C5 (ctx : BatchCtx) (oracle : IssueRequest → Option IssueData)
    (tickets : List Ticket) :
    runSavedOutput ctx oracle false tickets =
      some (save_results (tickets.filterMap (realResult ctx oracle))) ∧
    runSavedOutput ctx oracle true tickets = none := by
  constructor
  · have hb := ctbLoop_real ctx oracle tickets 0 []
    simp only [runSavedOutput, create_tickets_batch, hb, Bool.false_eq_true, if_false]
  · rcases hrec : create_tickets_batch ctx oracle true tickets with ⟨res, m, tr⟩
    simp [runSavedOutput, hrec]

/-- Claim C6: in dry-run mode the batch creator performs no network call
(the event trace is empty) and returns exactly one placeholder result
record, with fabricated linear id, identifier and url, per input ticket,
in input order. -/
theorem claim_C6 (ctx : BatchCtx) (oracle : IssueRequest → Option IssueData)
    (tickets : List Ticket) :
    (create_tickets_batch ctx oracle true tickets).2.2 = [] ∧
    (create_tickets_batch ctx oracle true tickets).1 =
      tickets.enum.map (fun p => dryPlaceholder p.1 p.2) := by
  have hb := ctbLoop_dry ctx oracle tickets 0 []
  constructor <;> simp [create_tickets_batch, hb, List.enum]

/-- Claim C7: in a real run, a ticket whose creation call raises
contributes no entry to the results list and none to the id map, the
raised error is recorded (a `mutateFail` event appears in its place in
the trace), and all other tickets are still processed: the results are
exactly the successful tickets' records in input order, the id-map keys
are exactly the ids of tickets whose call succeeded, and the trace is the
concatenation of each ticket's events in input order. -/
theorem claim_C7 (ctx : BatchCtx) (oracle : IssueRequest → Option IssueData)
    (tickets : List Ticket) :
    (create_tickets_batch ctx oracle false tickets).1 =
      tickets.filterMap (realResult ctx oracle) ∧
    (∀ k, k ∈ dkeys (create_tickets_batch ctx oracle false tickets).2.1 ↔
      ∃ t ∈ tickets, t.id = k ∧ (oracle (issueRequestFor ctx t)).isSome) ∧
    (create_tickets_batch ctx oracle false tickets).2.2 =
      tickets.flatMap (realEvents ctx oracle) := by
  have hb := ctbLoop_real ctx oracle tickets 0 []
  refine ⟨by simp [create_tickets_batch, hb], fun k => ?_, by simp [create_tickets_batch, hb]⟩
  have hkeys := ctbLoop_keys ctx oracle false tickets 0 [] k
  rw [show ctbLoop ctx oracle false tickets 0 [] =
      create_tickets_batch ctx oracle false tickets from rfl] at hkeys
  rw [hkeys]
  simp only [dkeys, List.map_nil, List.not_mem_nil, false_or]
  rw [show (create_tickets_batch ctx oracle false tickets).1 =
      tickets.filterMap (realResult ctx oracle) from by simp [create_tickets_batch, hb]]
  exact mem_map_json_id_filterMap ctx oracle tickets k

/-- Claim C8, counterexample: `get_or_create_project`, when it has to
create the project, performs a mutating `projectCreate` call that is not
followed by a rate-limit sleep — contradicting the claim that a delay is
executed after each mutating call including project creation. -/
theorem claim_C8_counterexample :
    (get_or_create_project [] "Lichess Clone" "proj-new").2 =
      [Ev.query "GetProjects", Ev.mutate "projectCreate"] ∧
    mutFollowedBySleep (get_or_create_project [] "Lichess Clone" "proj-new").2 = false :=
  ⟨rfl, rfl⟩

/-- Claim C8 (amended): in every non-dry run, the fixed rate-limit delay
is executed after each successful mutating label-creation, issue-creation
and relation-creation call; project creation is not followed by a delay,
and a mutating call that raises is not followed by one. -/
theorem claim_C8 :
    (∀ (mkId : String → String) (nodes : List (String × String))
        (label_names : List String),
      mutFollowedBySleep (get_or_create_labels mkId nodes label_names).2.2 = true) ∧
    (∀ (ctx : BatchCtx) (oracle : IssueRequest → Option IssueData) (tickets : List Ticket),
      mutFollowedBySleep (create_tickets_batch ctx oracle false tickets).2.2 = true) ∧
    (∀ (id_map : List (String × String)) (relOracle : RelReq → Bool)
        (tickets : List Ticket),
      mutFollowedBySleep
        (create_dependency_relations id_map relOracle false tickets).2.2.2 = true) := by
  refine ⟨get_or_create_labels_mfs, fun ctx oracle tickets => ?_,
    fun id_map relOracle tickets => cdr_mfs id_map relOracle false tickets⟩
  have hb := ctbLoop_real ctx oracle tickets 0 []
  rw [show (create_tickets_batch ctx oracle false tickets).2.2 =
      tickets.flatMap (realEvents ctx oracle) from by simp [create_tickets_batch, hb]]
  exact flatMap_realEvents_mfs ctx oracle tickets

/-- Claim C9: the collected label set equals the union over all tickets
of each ticket's explicit labels and its phase name, with duplicates
collapsed. -/
theorem claim_C9 (tickets : List Ticket) :
    collect_all_labels tickets = specLabelUnion tickets := by
  ext x
  have h1 := mem_collect_foldl tickets ∅ x
  simp only [Finset.not_mem_empty, false_or] at h1
  simp only [collect_all_labels, h1, mem_specLabelUnion, mem_phaseNameSet]

/-- Claim C10: in both dry-run and real mode, the pair returned by the
batch creator is coherent: the results' `json_id`s are an
order-preserving subsequence of the input tickets' ids, the id map's keys
are distinct, and the set of id-map keys equals the set of `json_id`s in
the results. -/
theorem claim_C10 (dry_run : Bool) (ctx : BatchCtx)
    (oracle : IssueRequest → Option IssueData) (tickets : List Ticket) :
    ((create_tickets_batch ctx oracle dry_run tickets).1.map TicketResult.json_id).Sublist
      (tickets.map Ticket.id) ∧
    (dkeys (create_tickets_batch ctx oracle dry_run tickets).2.1).Nodup ∧
    (∀ k, k ∈ dkeys (create_tickets_batch ctx oracle dry_run tickets).2.1 ↔
      k ∈ (create_tickets_batch ctx oracle dry_run tickets).1.map TicketResult.json_id) := by
  refine ⟨ctbLoop_sublist ctx oracle dry_run tickets 0 [],
    ctbLoop_nodup_keys ctx oracle dry_run tickets 0 [] (by simp [dkeys]),
    fun k => ?_⟩
  have := ctbLoop_keys ctx oracle dry_run tickets 0 [] k
  simpa [dkeys] using this

end CreateLinearTickets
